import Mathlib

/-!
Verification development for the CronJobScheduler repository
(job-listing scrape-and-monitor engine).

The Python sources are embedded shallowly:

* Parsed HTML (the result of `BeautifulSoup(html, 'lxml')`) is modelled as an
  explicit node tree `HNode`.  Fetching markup over the network is modelled by
  an environment record holding the markup each fetch strategy would return
  (`none` models a raised request/render failure).
* `selector_detector.SelectorDetector._score_job_container` is embedded
  directly over the node tree.
* `scraper.JobScraper.scrape_jobs` / `fetch_page` / `detect_selectors` are
  embedded as pure functions of the fetch environment; the selector-detection
  collaborator (`SelectorDetector.detect_selectors`) is passed as a function
  argument, so theorems about the engine's control flow quantify over every
  possible detector outcome.
* `thread_manager.PageMonitorThread._scrape_and_notify` is embedded as a state
  transition on the per-page state (seen-set, lock, counters, timestamps),
  with explicit flags for the failure modes of its collaborators.
* `thread_manager.ThreadManager._sync_threads` is embedded as a function from
  the running-thread set and the active-page list to the new thread set.
* `redis_manager.RedisManager` lock and seen-set operations are embedded with
  an explicit store state; a `RedisError` raised by the client is modelled by
  a boolean failure flag (the code catches it and returns the documented
  default).
* `hashlib.md5(...).hexdigest()` in `models.Job.get_hash` and
  `scraper.JobScraper._generate_job_id` is modelled as an injective encoding:
  the digest is represented by the serialized pre-image string
  `title|company|url` itself.  Properties about fingerprint distinctness are
  therefore proved about the serialization, taking collision-freedom of the
  digest as the modelling assumption.
* Python `str` helpers used by the code (`str.title`, `urljoin`, `urlparse`)
  are modelled by total Lean functions with the behaviour the code relies on
  for http/https URLs.
-/

/-! ## HTML node tree

Models the element tree produced by BeautifulSoup.  `classes` is the split
multi-valued `class` attribute, `attrs` the remaining attributes.  A mutual
inductive is used (instead of a nested `List HNode`) so that all recursions
below are structural and reduce in the kernel. -/

mutual

inductive HNode where
  | text (s : String)
  | elem (tag : String) (classes : List String) (attrs : List (String × String))
      (children : NodeList)

inductive NodeList where
  | nil
  | cons (head : HNode) (tail : NodeList)

end

/-- Builds a `NodeList` from a Lean list (convenience for concrete documents). -/
def nodeListOf : List HNode → NodeList
  | [] => .nil
  | x :: xs => .cons x (nodeListOf xs)

/-! ## String helpers

List-based models of the Python string operations the code uses
(`str.lower`, `str.strip`, slicing, prefix tests); expressed over the
character list so they evaluate by kernel reduction. -/

/-- Models Python `str.lower()` (ASCII case folding). -/
def strLower (s : String) : String := ⟨s.data.map Char.toLower⟩

/-- Models Python `str.strip()` as used by `get_text(strip=True)`. -/
def strTrim (s : String) : String :=
  ⟨((s.data.dropWhile Char.isWhitespace).reverse.dropWhile
      Char.isWhitespace).reverse⟩

/-- Drops the first `n` characters of a string. -/
def strDrop (s : String) (n : Nat) : String := ⟨s.data.drop n⟩

/-- Whether `pat` is a prefix of `s`. -/
def strStarts (s pat : String) : Bool := List.isPrefixOf pat.data s.data

/-- Characters of `s` up to (not including) the first occurrence of `c`;
models `s.split(c)[0]` and netloc truncation at a slash. -/
def strTakeUntil (s : String) (c : Char) : String :=
  ⟨s.data.takeWhile (fun x => x ≠ c)⟩

mutual

/-- Models `Tag.get_text()`: concatenation of every text node below (and at)
this node, in document order. -/
def HNode.getText : HNode → String
  | .text s => s
  | .elem _ _ _ ch => NodeList.getTextList ch

def NodeList.getTextList : NodeList → String
  | .nil => ""
  | .cons c cs => c.getText ++ NodeList.getTextList cs

end

mutual

/-- Models `Tag.get_text(strip=True)`: each string is stripped of surrounding
whitespace before concatenation. -/
def HNode.getTextStrip : HNode → String
  | .text s => strTrim s
  | .elem _ _ _ ch => NodeList.getTextStripList ch

def NodeList.getTextStripList : NodeList → String
  | .nil => ""
  | .cons c cs => c.getTextStrip ++ NodeList.getTextStripList cs

end

mutual

/-- All strict descendants of a node, in document (preorder) order.  This is
the search space of BeautifulSoup's `find`/`select_one`/`select` when called
on a tag. -/
def HNode.descendants : HNode → List HNode
  | .text _ => []
  | .elem _ _ _ ch => NodeList.descList ch

def NodeList.descList : NodeList → List HNode
  | .nil => []
  | .cons c cs => c :: c.descendants ++ NodeList.descList cs

end

mutual

/-- Decidable structural equality of node trees (used to model the
`html_playwright != html` comparison of fetched markup). -/
def HNode.beq : HNode → HNode → Bool
  | .text a, .text b => a == b
  | .elem t c a ch, .elem t' c' a' ch' =>
      t == t' && c == c' && a == a' && NodeList.beqList ch ch'
  | _, _ => false

def NodeList.beqList : NodeList → NodeList → Bool
  | .nil, .nil => true
  | .cons x xs, .cons y ys => HNode.beq x y && NodeList.beqList xs ys
  | _, _ => false

end

/-- Tag name of an element node (empty for text nodes). -/
def HNode.tagName : HNode → String
  | .text _ => ""
  | .elem t _ _ _ => t

/-- Class list of an element node. -/
def HNode.classList : HNode → List String
  | .text _ => []
  | .elem _ c _ _ => c

/-- Attribute lookup, modelling `Tag.get(name)`. -/
def HNode.attr (n : HNode) (name : String) : Option String :=
  match n with
  | .text _ => none
  | .elem _ _ attrs _ => attrs.lookup name

/-- Whether the node is an element (BeautifulSoup searches only consider
`Tag` nodes). -/
def HNode.isElem : HNode → Bool
  | .text _ => false
  | .elem _ _ _ _ => true

/-! ## Substring search

Models Python's `in` operator on strings (`keyword in text`), used by the
container scoring heuristic. -/

/-- Whether `pat` occurs at position `i` of `s` (character lists). -/
def occursAt (pat s : List Char) (i : Nat) : Bool :=
  List.take pat.length (List.drop i s) == pat

/-- Models Python `pat in s` for strings. -/
def strContains (s pat : String) : Bool :=
  (List.range (s.data.length + 1)).any (occursAt pat.data s.data)

/-! ## Selector matching

The detector only ever emits selectors of the form `.someClass` (class
selector) or a bare tag name (`SelectorDetector._get_selector_from_element`),
so `soup.select` is modelled for exactly that fragment of CSS. -/

/-- Whether an element matches a selector of the generated fragment:
a leading dot selects by class, otherwise by tag name. -/
def matchesSelector (sel : String) (n : HNode) : Bool :=
  match n with
  | .text _ => false
  | .elem tag classes _ _ =>
      if strStarts sel "." then classes.contains (strDrop sel 1)
      else tag == sel

/-- Models `soup.select(sel)` on a whole document: every element of the tree
matching the selector, in document order. -/
def selectAll (sel : String) (root : HNode) : List HNode :=
  (root :: root.descendants).filter (matchesSelector sel)

/-- Models `tag.select_one(sel)`: first matching strict descendant. -/
def selectOne (sel : String) (card : HNode) : Option HNode :=
  card.descendants.find? (matchesSelector sel)

/-- Models `tag.find(name)`: first strict descendant with the given tag. -/
def findTag (t : String) (card : HNode) : Option HNode :=
  card.descendants.find? (fun n => n.isElem && n.tagName == t)

/-- Models `tag.find('a', href=True)`: first strict descendant anchor that
carries an `href` attribute (of any value). -/
def findAnchorWithHref (card : HNode) : Option HNode :=
  card.descendants.find? (fun n => n.tagName == "a" && (n.attr "href").isSome)

/-! ## Container scoring (`SelectorDetector._score_job_container`) -/

/-- The keyword list of `_score_job_container`, in source order. -/
def jobKeywords : List String :=
  ["apply", "position", "location", "full-time", "part-time", "remote",
   "hybrid", "salary"]

/-- Embeds `SelectorDetector._score_job_container`: starts at 0, adds 1 per
keyword contained in the lowercased text, adds 2 when the element contains an
anchor, subtracts 2 when the text exceeds 500 characters, adds 1 when the
text length lies strictly between 50 and 300. -/
def scoreJobContainer (e : HNode) : Int :=
  let text := strLower e.getText
  let s1 := jobKeywords.foldl
    (fun acc kw => if strContains text kw then acc + 1 else acc) 0
  let s2 := if (findTag "a" e).isSome then s1 + 2 else s1
  let s3 := if text.length > 500 then s2 - 2 else s2
  if 50 < text.length ∧ text.length < 300 then s3 + 1 else s3

/-- The scoring formula exactly as claim C7 words it: only the seven keywords
apply, location, remote, full-time, part-time, hybrid, salary contribute. -/
def claimSevenKeywordScore (e : HNode) : Int :=
  let text := strLower e.getText
  let sevenKeywords : List String :=
    ["apply", "location", "remote", "full-time", "part-time", "hybrid",
     "salary"]
  ((sevenKeywords.countP (fun kw => strContains text kw) : Int))
    + (if (findTag "a" e).isSome then 2 else 0)
    - (if text.length > 500 then 2 else 0)
    + (if 50 < text.length ∧ text.length < 300 then 1 else 0)

/-- Closed-form score with the full eight-keyword list of the source
(the claim's formula amended to include the keyword `position`). -/
def eightKeywordScore (e : HNode) : Int :=
  let text := strLower e.getText
  ((jobKeywords.countP (fun kw => strContains text kw) : Int))
    + (if (findTag "a" e).isSome then 2 else 0)
    - (if text.length > 500 then 2 else 0)
    + (if 50 < text.length ∧ text.length < 300 then 1 else 0)

lemma foldl_count_int (p : String → Bool) (l : List String) (init : Int) :
    l.foldl (fun acc kw => if p kw then acc + 1 else acc) init
      = init + (l.countP p : Int) := by
  induction l generalizing init with
  | nil => simp
  | cons x xs ih =>
      simp only [List.foldl_cons, List.countP_cons]
      by_cases h : p x = true
      · simp [h, ih]; ring
      · simp [h, ih]

/-- A concrete candidate element whose text contains the keyword `position`
and nothing else relevant. -/
def positionOnlyElem : HNode :=
  HNode.elem "div" [] [] (nodeListOf [HNode.text "position"])

/-- Claim C7: the container score is claimed to be the sum of +1 per keyword
among exactly apply, location, remote, full-time, part-time, hybrid, salary,
+2 for a hyperlink, -2 over the length bound, +1 in the moderate band.  A
concrete element whose text is just the word "position" refutes this: the
source's keyword list also contains "position", so the code scores it 1 while
the claimed formula scores it 0. -/
theorem c7_score_counterexample :
    scoreJobContainer positionOnlyElem ≠ claimSevenKeywordScore positionOnlyElem
      ∧ scoreJobContainer positionOnlyElem = 1
      ∧ claimSevenKeywordScore positionOnlyElem = 0 := by
  refine ⟨?_, ?_, ?_⟩ <;> decide

/-- Claim C7 amended: the score of a candidate container equals +1 per keyword
among apply, position, location, remote, full-time, part-time, hybrid, salary
occurring in its lowercased text, +2 if the element contains a hyperlink,
-2 if the text exceeds the upper length bound (500), and +1 if the length is
in the moderate band (strictly between 50 and 300) — with no other term
contributing. -/
theorem c7_score_amended (e : HNode) :
    scoreJobContainer e = eightKeywordScore e := by
  unfold scoreJobContainer eightKeywordScore
  simp only [foldl_count_int, Int.zero_add]
  by_cases hA : (findTag "a" e).isSome <;>
    by_cases hL : (strLower e.getText).length > 500 <;>
      by_cases hB : 50 < (strLower e.getText).length ∧
          (strLower e.getText).length < 300 <;>
        simp [hA, hL, hB]

/-! ## Job records and fingerprints (`models.Job`, `JobScraper._generate_job_id`)

The `first_seen` timestamp and optional `description` of the Python dataclass
are wall-clock/unused fields and are not part of the fingerprint; they are
omitted from the embedded record. -/

structure Job where
  id : String
  page_id : String
  title : String
  company : String
  url : String
  location : Option String
deriving DecidableEq, Repr

/-- The serialized pre-image `f"{title}|{company}|{url}"` that both
`Job.get_hash` and `JobScraper._generate_job_id` feed to md5. -/
def uniqueJobString (title company url : String) : String :=
  title ++ "|" ++ company ++ "|" ++ url

/-- Models `hashlib.md5(s.encode()).hexdigest()` as an injective encoding of
its input (collision-freedom of the digest is the modelling assumption; every
interesting property lies in the serialization). -/
def md5Model (s : String) : String := s

/-- Embeds `models.Job.get_hash`: md5 hexdigest of `title|company|url`. -/
def jobGetHash (j : Job) : String :=
  md5Model (uniqueJobString j.title j.company j.url)

/-- Embeds `JobScraper._generate_job_id` (md5 hexdigest of the same
serialization; the Python 16-character truncation is dropped by the injective
digest model). -/
def generateJobId (title company url : String) : String :=
  md5Model (uniqueJobString title company url)

lemma uniqueJobString_company_inj (t u c1 c2 : String)
    (h : uniqueJobString t c1 u = uniqueJobString t c2 u) : c1 = c2 := by
  unfold uniqueJobString at h
  have hd := congrArg String.data h
  simp only [String.data_append, List.append_assoc] at hd
  have h2 := List.append_cancel_left hd
  have h3 := List.append_cancel_left h2
  exact String.ext (List.append_cancel_right h3)

/-- Claim C8: two extracted records with identical title and identical link
but different employer have distinct fingerprints.  (The fingerprint is the
md5 digest of `title|company|url`, modelled injectively; the serialized
pre-images are proved distinct.) -/
theorem c8_hash_distinct (j1 j2 : Job)
    (ht : j1.title = j2.title) (hu : j1.url = j2.url)
    (hc : j1.company ≠ j2.company) :
    jobGetHash j1 ≠ jobGetHash j2 := by
  intro h
  apply hc
  unfold jobGetHash md5Model at h
  rw [ht, hu] at h
  exact uniqueJobString_company_inj _ _ _ _ h

/-- Witness for C8 at concrete records. -/
theorem c8_hash_distinct_witness :
    jobGetHash ⟨"i1", "p", "Engineer", "Acme", "http://a/j", none⟩
      ≠ jobGetHash ⟨"i2", "p", "Engineer", "Bcme", "http://a/j", none⟩ :=
  c8_hash_distinct _ _ rfl rfl (by decide)

/-! ## Lock manager (`RedisManager` page-lock operations)

The Redis key `scrape_lock:{page_id}` for one target is modelled as an
optional (value, expiry-time) pair; `SET key "locked" NX EX duration` succeeds
exactly when no unexpired entry exists, and an expired entry counts as
absent. -/

structure LockStore where
  lock : Option (String × Nat)
deriving DecidableEq, Repr

/-- Embeds `RedisManager.acquire_page_lock`: `SET ... nx=True, ex=duration`
with the constant value "locked"; returns the new store and whether the lock
was acquired. -/
def acquirePageLock (now lockDuration : Nat) (s : LockStore) :
    LockStore × Bool :=
  match s.lock with
  | some (_, exp) =>
      if now < exp then (s, false)
      else (⟨some ("locked", now + lockDuration)⟩, true)
  | none => (⟨some ("locked", now + lockDuration)⟩, true)

/-- Embeds `RedisManager.release_page_lock`: unconditionally deletes the lock
key, whoever holds it. -/
def releasePageLock (s : LockStore) : LockStore × Bool :=
  (⟨none⟩, true)

/-- Embeds `RedisManager.is_page_locked`: whether an unexpired lock key
exists. -/
def isPageLocked (now : Nat) (s : LockStore) : Bool :=
  match s.lock with
  | some (_, exp) => now < exp
  | none => false

/-- Claim C9: releasing a target's lock is unconditional.  `release` maps
every store state — including one whose lock was acquired by another process —
to the state with no lock key, and a successful `acquire` stores only the
constant value "locked", so no per-holder token exists that `release` could
check. -/
theorem c9_release_unconditional (now lockDuration : Nat) (s : LockStore) :
    ((releasePageLock s).1.lock = none)
      ∧ ((acquirePageLock now lockDuration s).2 = true →
          (acquirePageLock now lockDuration s).1.lock
            = some ("locked", now + lockDuration)) := by
  constructor
  · rfl
  · intro hacq
    unfold acquirePageLock at hacq ⊢
    match hs : s.lock with
    | none => simp [hs]
    | some (v, exp) =>
        simp only [hs] at hacq ⊢
        by_cases hexp : now < exp
        · simp [hexp] at hacq
        · simp [hexp]

/-- Witness for C9: a process whose lock (value "locked", expiry 10) has
expired at time 20 sees another process acquire, and release still deletes
the current lock. -/
theorem c9_release_unconditional_witness :
    ((releasePageLock ⟨some ("locked", 25)⟩).1.lock = none)
      ∧ ((acquirePageLock 20 5 ⟨some ("locked", 10)⟩).1.lock
          = some ("locked", 25)) :=
  ⟨(c9_release_unconditional 20 5 ⟨some ("locked", 25)⟩).1,
   (c9_release_unconditional 20 5 ⟨some ("locked", 10)⟩).2 (by decide)⟩

/-! ## Scheduler reconciliation (`ThreadManager._sync_threads`)

One reconciliation pass: stop the threads whose page id left the active set,
then walk the active-page list and start a thread for each id that was not
already running, but only while the running count is below `max_threads`.
Thread identity is its page id; the running set is a `Finset String`. -/

/-- The start loop of `_sync_threads`: `to_start` membership is `pid ∉ orig`
(ids already running before the pass were not in `to_start`), the cap check is
`len(self.threads) < max_threads`, and `_start_thread` is a no-op when a
thread for the id already exists. -/
def startNewThreads (cap : Nat) (orig : Finset String) :
    List String → Finset String → Finset String
  | [], ts => ts
  | pid :: rest, ts =>
      if pid ∉ orig then
        if ts.card < cap then
          if pid ∈ ts then startNewThreads cap orig rest ts
          else startNewThreads cap orig rest (insert pid ts)
        else startNewThreads cap orig rest ts
      else startNewThreads cap orig rest ts

/-- Embeds `ThreadManager._sync_threads`: stop threads not in the active set
(`current_thread_ids - active_page_ids`), then run the start loop over the
active pages. -/
def syncThreads (cap : Nat) (threads : Finset String)
    (actives : List String) : Finset String :=
  startNewThreads cap threads actives (threads ∩ actives.toFinset)

lemma startNewThreads_cons (cap : Nat) (orig : Finset String)
    (pid : String) (rest : List String) (ts : Finset String) :
    startNewThreads cap orig (pid :: rest) ts =
      if pid ∉ orig then
        if ts.card < cap then
          if pid ∈ ts then startNewThreads cap orig rest ts
          else startNewThreads cap orig rest (insert pid ts)
        else startNewThreads cap orig rest ts
      else startNewThreads cap orig rest ts := rfl

lemma startNewThreads_mono (cap : Nat) (orig : Finset String)
    (l : List String) : ∀ ts : Finset String,
    ts ⊆ startNewThreads cap orig l ts := by
  induction l with
  | nil => intro ts; exact Finset.Subset.refl ts
  | cons pid rest ih =>
      intro ts
      rw [startNewThreads_cons]
      by_cases h1 : pid ∉ orig
      · rw [if_pos h1]
        by_cases h2 : ts.card < cap
        · rw [if_pos h2]
          by_cases h3 : pid ∈ ts
          · rw [if_pos h3]; exact ih ts
          · rw [if_neg h3]
            exact (Finset.subset_insert pid ts).trans (ih _)
        · rw [if_neg h2]; exact ih ts
      · rw [if_neg h1]; exact ih ts

lemma startNewThreads_subset (cap : Nat) (orig : Finset String)
    (l : List String) : ∀ ts : Finset String,
    startNewThreads cap orig l ts ⊆ ts ∪ l.toFinset := by
  induction l with
  | nil => intro ts; simp [startNewThreads]
  | cons pid rest ih =>
      intro ts
      have hstep : ∀ ts' : Finset String, ts' ⊆ insert pid ts →
          startNewThreads cap orig rest ts' ⊆ ts ∪ (pid :: rest).toFinset := by
        intro ts' hts'
        calc startNewThreads cap orig rest ts'
            ⊆ ts' ∪ rest.toFinset := ih ts'
          _ ⊆ insert pid ts ∪ rest.toFinset :=
              Finset.union_subset_union hts' (Finset.Subset.refl _)
          _ = ts ∪ (pid :: rest).toFinset := by
              rw [Finset.insert_union, List.toFinset_cons, Finset.union_insert]
      rw [startNewThreads_cons]
      by_cases h1 : pid ∉ orig
      · rw [if_pos h1]
        by_cases h2 : ts.card < cap
        · rw [if_pos h2]
          by_cases h3 : pid ∈ ts
          · rw [if_pos h3]; exact hstep ts (Finset.subset_insert pid ts)
          · rw [if_neg h3]; exact hstep _ (Finset.Subset.refl _)
        · rw [if_neg h2]; exact hstep ts (Finset.subset_insert pid ts)
      · rw [if_neg h1]; exact hstep ts (Finset.subset_insert pid ts)

lemma startNewThreads_card_le (cap : Nat) (orig : Finset String)
    (l : List String) : ∀ ts : Finset String, ts.card ≤ cap →
    (startNewThreads cap orig l ts).card ≤ cap := by
  induction l with
  | nil => intro ts h; exact h
  | cons pid rest ih =>
      intro ts h
      rw [startNewThreads_cons]
      by_cases h1 : pid ∉ orig
      · rw [if_pos h1]
        by_cases h2 : ts.card < cap
        · rw [if_pos h2]
          by_cases h3 : pid ∈ ts
          · rw [if_pos h3]; exact ih ts h
          · rw [if_neg h3]
            refine ih _ ?_
            have := Finset.card_insert_le pid ts
            omega
        · rw [if_neg h2]; exact ih ts h
      · rw [if_neg h1]; exact ih ts h

lemma startNewThreads_complete (cap : Nat) (orig : Finset String)
    (l : List String) : ∀ (ts : Finset String) (x : String), x ∈ l →
    x ∉ orig → x ∉ startNewThreads cap orig l ts →
    cap ≤ (startNewThreads cap orig l ts).card := by
  induction l with
  | nil => intro ts x hx; cases hx
  | cons pid rest ih =>
      intro ts x hx hxo hxr
      rw [startNewThreads_cons] at hxr ⊢
      by_cases h1 : pid ∉ orig
      · rw [if_pos h1] at hxr ⊢
        by_cases h2 : ts.card < cap
        · rw [if_pos h2] at hxr ⊢
          by_cases h3 : pid ∈ ts
          · rw [if_pos h3] at hxr ⊢
            rcases List.mem_cons.mp hx with hx1 | hx1
            · subst hx1
              exact absurd (startNewThreads_mono cap orig rest ts h3) hxr
            · exact ih ts x hx1 hxo hxr
          · rw [if_neg h3] at hxr ⊢
            rcases List.mem_cons.mp hx with hx1 | hx1
            · subst hx1
              exact absurd (startNewThreads_mono cap orig rest _
                (Finset.mem_insert_self x ts)) hxr
            · exact ih _ x hx1 hxo hxr
        · rw [if_neg h2] at hxr ⊢
          rcases List.mem_cons.mp hx with hx1 | hx1
          · subst hx1
            have := Finset.card_le_card (startNewThreads_mono cap orig rest ts)
            omega
          · exact ih ts x hx1 hxo hxr
      · rw [if_neg h1] at hxr ⊢
        rcases List.mem_cons.mp hx with hx1 | hx1
        · subst hx1; exact absurd hxo h1
        · exact ih ts x hx1 hxo hxr

/-- Claim C2: after one reconciliation pass starting from a running set within
the cap, the running set equals the active set when the actives fit under the
concurrency cap; otherwise exactly `cap` tasks run and every running task is
active (starts beyond the cap are simply not performed this pass). -/
theorem c2_sync_threads_cap (cap : Nat) (threads : Finset String)
    (actives : List String) (hcard : threads.card ≤ cap) :
    (actives.toFinset.card ≤ cap →
        syncThreads cap threads actives = actives.toFinset)
      ∧ (cap < actives.toFinset.card →
          (syncThreads cap threads actives).card = cap
            ∧ syncThreads cap threads actives ⊆ actives.toFinset) := by
  set A := actives.toFinset with hA
  set K := threads ∩ A with hK
  have hKsub : K ⊆ A := Finset.inter_subset_right
  have hKcard : K.card ≤ cap :=
    le_trans (Finset.card_le_card Finset.inter_subset_left) hcard
  set R := startNewThreads cap threads actives K with hR
  have hRA : R ⊆ A := by
    refine (startNewThreads_subset cap threads actives K).trans ?_
    exact Finset.union_subset hKsub (Finset.Subset.refl A)
  have hRcard : R.card ≤ cap := startNewThreads_card_le cap threads actives K hKcard
  have hmem : ∀ x ∈ A, x ∈ R ∨ cap ≤ R.card := by
    intro x hxA
    have hxl : x ∈ actives := List.mem_toFinset.mp hxA
    by_cases hxt : x ∈ threads
    · exact Or.inl (startNewThreads_mono cap threads actives K
        (Finset.mem_inter.mpr ⟨hxt, hxA⟩))
    · by_cases hxR : x ∈ R
      · exact Or.inl hxR
      · exact Or.inr (startNewThreads_complete cap threads actives K x hxl hxt hxR)
  have hsync : syncThreads cap threads actives = R := rfl
  rw [hsync]
  constructor
  · intro hAcap
    have hAR : A ⊆ R := by
      intro x hxA
      rcases hmem x hxA with hx | hx
      · exact hx
      · have hRcard' : R.card ≤ A.card := Finset.card_le_card hRA
        have : R = A := Finset.eq_of_subset_of_card_le hRA (by omega)
        rw [this]; exact hxA
    exact Finset.Subset.antisymm hRA hAR
  · intro hAcap
    refine ⟨?_, hRA⟩
    by_contra hne
    have hlt : R.card < cap := lt_of_le_of_ne hRcard hne
    have hAR : A ⊆ R := by
      intro x hxA
      rcases hmem x hxA with hx | hx
      · exact hx
      · omega
    have : A.card ≤ R.card := Finset.card_le_card hAR
    omega

/-- Witness for C2: two active targets under a cap of one, starting from no
running threads, leave exactly one running thread, and it is active. -/
theorem c2_sync_threads_cap_witness :
    (syncThreads 1 ∅ ["a", "b"]).card = 1
      ∧ syncThreads 1 ∅ ["a", "b"] ⊆ (["a", "b"] : List String).toFinset :=
  (c2_sync_threads_cap 1 ∅ ["a", "b"] (by decide)).2 (by decide)

/-! ## URL helpers used by the extraction engine

`urllib.parse.urljoin` and `urlparse().netloc` are standard-library
collaborators; they are modelled for the http/https URLs the system handles:
an absolute href wins, any other href is appended to the base, and the
network location is the part between the scheme and the first slash. -/

/-- Models `urljoin(base, href)` for the cases the code relies on. -/
def urljoin (base href : String) : String :=
  if strStarts href "http://" ∨ strStarts href "https://" then href
  else base ++ href

/-- Models `urlparse(url).netloc` for http/https URLs. -/
def netlocOf (u : String) : String :=
  if strStarts u "https://" then strTakeUntil (strDrop u 8) '/'
  else if strStarts u "http://" then strTakeUntil (strDrop u 7) '/'
  else ""

/-- Models `domain.replace('www.', '')`: removes every (non-overlapping,
left-to-right) occurrence of the literal `www.`. -/
def removeWww : List Char → List Char
  | 'w' :: 'w' :: 'w' :: '.' :: rest => removeWww rest
  | c :: rest => c :: removeWww rest
  | [] => []

/-- Models Python `str.title()`: the first character of each alphabetic run
uppercased, the rest lowercased. -/
def pyTitleAux : Bool → List Char → List Char
  | _, [] => []
  | prevAlpha, c :: cs =>
      if c.isAlpha then
        (if prevAlpha then c.toLower else c.toUpper) :: pyTitleAux true cs
      else c :: pyTitleAux false cs

/-- Models Python `str.title()` on a string. -/
def pyTitle (s : String) : String := ⟨pyTitleAux false s.data⟩

/-! ## Extraction engine (`scraper.JobScraper`) -/

/-- Embeds `models.Selectors` (the `job_description` field is never read by
the engine and is omitted). -/
structure Selectors where
  type : String := "auto"
  job_card : Option String := none
  job_title : Option String := none
  job_link : Option String := none
  job_location : Option String := none
  use_playwright : Bool := false
deriving DecidableEq, Repr

/-- The dictionary returned by `SelectorDetector.detect_selectors` (the
selector-detection collaborator). -/
structure Detected where
  job_card : Option String := none
  job_title : Option String := none
  job_link : Option String := none
  job_location : Option String := none
deriving DecidableEq, Repr

/-- Embeds `JobScraper._extract_company_name`: first descendant that carries a
class containing "company" (case-insensitively), else a name inferred from
the page URL (netloc with every `www.` removed, truncated at the first dot,
title-cased). -/
def extractCompanyName (card : HNode) (baseUrl : String) : String :=
  match card.descendants.find? (fun n =>
      n.classList.any (fun c => strContains (strLower c) "company")) with
  | some e => e.getTextStrip
  | none =>
      pyTitle (strTakeUntil ⟨removeWww (netlocOf baseUrl).data⟩ '.')

/-- First element among the title-fallback tags `h1 h2 h3 h4 strong b`,
scanned tag by tag, modelling the fallback loop of
`JobScraper._extract_job_from_card`. -/
def findFirstByTags (tags : List String) (card : HNode) : Option HNode :=
  match tags with
  | [] => none
  | t :: ts =>
      match findTag t card with
      | some e => some e
      | none => findFirstByTags ts card

/-- Embeds `JobScraper._extract_job_from_card`.  A falsy (empty) title after
both the configured selector and the heading/bold fallback makes the card
yield no record; the link falls back from the configured selector to the
first anchor with an href and finally to the page URL itself. -/
def extractJobFromCard (card : HNode) (pageId baseUrl : String)
    (sel : Selectors) : Option Job :=
  let titleFromSel : String :=
    match sel.job_title with
    | some ts =>
        match selectOne ts card with
        | some e => e.getTextStrip
        | none => ""
    | none => ""
  let title : String :=
    if titleFromSel = "" then
      match findFirstByTags ["h1", "h2", "h3", "h4", "strong", "b"] card with
      | some e => e.getTextStrip
      | none => ""
    else titleFromSel
  if title = "" then none
  else
    let urlFromSel : String :=
      match sel.job_link with
      | some ls =>
          match selectOne ls card with
          | some e =>
              match e.attr "href" with
              | some href => if href = "" then "" else urljoin baseUrl href
              | none => ""
          | none => ""
      | none => ""
    let jobUrl0 : String :=
      if urlFromSel = "" then
        match findAnchorWithHref card with
        | some e =>
            match e.attr "href" with
            | some href => urljoin baseUrl href
            | none => ""
        | none => ""
      else urlFromSel
    let jobUrl : String := if jobUrl0 = "" then baseUrl else jobUrl0
    let location : Option String :=
      match sel.job_location with
      | some ls => (selectOne ls card).map HNode.getTextStrip
      | none => none
    let company := extractCompanyName card baseUrl
    some
      { id := generateJobId title company jobUrl
        page_id := pageId
        title := title
        company := company
        url := jobUrl
        location := location }

/-- The per-card loop of `JobScraper.scrape_jobs`: extract each card, keep
the record only when its fingerprint is not in the seen-set. -/
def collectNewJobs (pageId url : String) (sel : Selectors)
    (seen : Finset String) : List HNode → List Job
  | [] => []
  | card :: rest =>
      match extractJobFromCard card pageId url sel with
      | some job =>
          if jobGetHash job ∈ seen then collectNewJobs pageId url sel seen rest
          else job :: collectNewJobs pageId url sel seen rest
      | none => collectNewJobs pageId url sel seen rest

/-- The markup each fetch strategy would produce for the target URL.  `none`
models the strategy failing (a raised `RequestException` for the static
strategy, a Playwright failure for the rendered one). -/
structure FetchEnv where
  staticHtml : Option HNode
  renderedHtml : Option HNode

/-- Embeds `JobScraper.fetch_page`: with the Playwright flag the rendered
strategy is used directly; otherwise the static strategy is tried first and
the rendered strategy is used as fallback exactly when the static request
raises.  Returns the markup plus how many static/rendered attempts were
made. -/
def fetchPage (env : FetchEnv) (usePlaywright : Bool) :
    Option HNode × Nat × Nat :=
  if usePlaywright then (env.renderedHtml, 0, 1)
  else
    match env.staticHtml with
    | some h => (some h, 1, 0)
    | none => (env.renderedHtml, 1, 1)

/-- Result of one `scrape_jobs` call: the new records, the selector record
after any in-place auto-detection update, and the fetch-attempt counters. -/
structure ScrapeResult where
  jobs : List Job
  sel : Selectors
  staticCalls : Nat
  renderedCalls : Nat
deriving Repr

/-- Embeds `JobScraper.scrape_jobs`.  The selector-detection collaborator is
the function argument `detect`; `seen` is the seen-set argument.  Mirrors the
source: fetch (honouring the per-target Playwright flag), give up on missing
markup, run detection when the config is auto or has no container selector,
give up when detection yields no container, select the cards and run the
per-card loop. -/
def scrapeJobs (detect : HNode → Detected) (env : FetchEnv)
    (pageId url : String) (sel : Selectors) (seen : Finset String) :
    ScrapeResult :=
  match fetchPage env sel.use_playwright with
  | (none, sc, rc) =>
      { jobs := [], sel := sel, staticCalls := sc, renderedCalls := rc }
  | (some html, sc, rc) =>
      if sel.type = "auto" ∨ sel.job_card = none then
        match (detect html).job_card with
        | none =>
            { jobs := [], sel := sel, staticCalls := sc, renderedCalls := rc }
        | some jc =>
            { jobs :=
                collectNewJobs pageId url
                  { sel with
                      job_card := some jc
                      job_title := (detect html).job_title
                      job_link := (detect html).job_link
                      job_location := (detect html).job_location }
                  seen (selectAll jc html)
              sel :=
                { sel with
                    job_card := some jc
                    job_title := (detect html).job_title
                    job_link := (detect html).job_link
                    job_location := (detect html).job_location }
              staticCalls := sc
              renderedCalls := rc }
      else
        match sel.job_card with
        | some jc =>
            { jobs := collectNewJobs pageId url sel seen (selectAll jc html)
              sel := sel
              staticCalls := sc
              renderedCalls := rc }
        | none =>
            { jobs := [], sel := sel, staticCalls := sc, renderedCalls := rc }

/-- Result of the standalone `JobScraper.detect_selectors` flow: the
selectors it returns, whether it marked the page as needing Playwright, and
the fetch-attempt counters. -/
structure DetectFlowResult where
  selectors : Detected
  usePlaywright : Bool
  staticCalls : Nat
  renderedCalls : Nat
deriving Repr

/-- Embeds `JobScraper.detect_selectors`: fetch statically (with the
rendered fallback inside `fetch_page`), run detection, and when no container
was found fetch once with Playwright and re-run detection on the rendered
markup if it differs, adopting its selectors only when they do contain a
container. -/
def detectSelectorsFlow (detect : HNode → Detected) (env : FetchEnv) :
    DetectFlowResult :=
  match fetchPage env false with
  | (none, sc, rc) =>
      { selectors := {}, usePlaywright := false
        staticCalls := sc, renderedCalls := rc }
  | (some html, sc, rc) =>
      if (detect html).job_card = none then
        match fetchPage env true with
        | (some html2, sc2, rc2) =>
            if HNode.beq html2 html then
              { selectors := detect html, usePlaywright := false
                staticCalls := sc + sc2, renderedCalls := rc + rc2 }
            else
              if (detect html2).job_card ≠ none then
                { selectors := detect html2, usePlaywright := true
                  staticCalls := sc + sc2, renderedCalls := rc + rc2 }
              else
                { selectors := detect html, usePlaywright := false
                  staticCalls := sc + sc2, renderedCalls := rc + rc2 }
        | (none, sc2, rc2) =>
            { selectors := detect html, usePlaywright := false
              staticCalls := sc + sc2, renderedCalls := rc + rc2 }
      else
        { selectors := detect html, usePlaywright := false
          staticCalls := sc, renderedCalls := rc }

/-! ## Dedup behaviour of the engine -/

lemma collectNewJobs_filter (pageId url : String) (sel : Selectors)
    (seen : Finset String) : ∀ cards : List HNode,
    collectNewJobs pageId url sel seen cards
      = (collectNewJobs pageId url sel ∅ cards).filter
          (fun j => decide (jobGetHash j ∉ seen)) := by
  intro cards
  induction cards with
  | nil => rfl
  | cons card rest ih =>
      unfold collectNewJobs
      rcases hx : extractJobFromCard card pageId url sel with _ | job
      · simpa using ih
      · by_cases hmem : jobGetHash job ∈ seen
        · simp [hmem, ih, Finset.not_mem_empty]
        · simp [hmem, ih, Finset.not_mem_empty]

lemma fetchPage_false_none (env : FetchEnv) (h : env.staticHtml = none) :
    fetchPage env false = (env.renderedHtml, 1, 1) := by
  unfold fetchPage
  rw [h]
  rfl

lemma fetchPage_false_some (env : FetchEnv) (html : HNode)
    (h : env.staticHtml = some html) :
    fetchPage env false = (some html, 1, 0) := by
  unfold fetchPage
  rw [h]
  rfl

lemma fetchPage_true (env : FetchEnv) :
    fetchPage env true = (env.renderedHtml, 0, 1) := rfl

lemma scrapeJobs_seen_spec (detect : HNode → Detected) (env : FetchEnv)
    (pageId url : String) (sel : Selectors) (seen : Finset String) :
    (scrapeJobs detect env pageId url sel seen).jobs
        = ((scrapeJobs detect env pageId url sel ∅).jobs).filter
            (fun j => decide (jobGetHash j ∉ seen))
      ∧ (scrapeJobs detect env pageId url sel seen).sel
          = (scrapeJobs detect env pageId url sel ∅).sel
      ∧ (scrapeJobs detect env pageId url sel seen).staticCalls
          = (scrapeJobs detect env pageId url sel ∅).staticCalls
      ∧ (scrapeJobs detect env pageId url sel seen).renderedCalls
          = (scrapeJobs detect env pageId url sel ∅).renderedCalls := by
  unfold scrapeJobs
  rcases hf : fetchPage env sel.use_playwright with ⟨ho, sc, rc⟩
  cases ho with
  | none => exact ⟨rfl, rfl, rfl, rfl⟩
  | some html =>
      dsimp only
      by_cases hauto : sel.type = "auto" ∨ sel.job_card = none
      · rw [if_pos hauto, if_pos hauto]
        rcases Option.eq_none_or_eq_some ((detect html).job_card)
          with hd | ⟨jc, hd⟩
        · rw [hd]
          exact ⟨rfl, rfl, rfl, rfl⟩
        · rw [hd]
          exact ⟨collectNewJobs_filter _ _ _ _ _, rfl, rfl, rfl⟩
      · rw [if_neg hauto, if_neg hauto]
        rcases Option.eq_none_or_eq_some sel.job_card with hjc | ⟨jc, hjc⟩
        · rw [hjc]
          exact ⟨rfl, rfl, rfl, rfl⟩
        · rw [hjc]
          exact ⟨collectNewJobs_filter _ _ _ _ _, rfl, rfl, rfl⟩

lemma scrapeJobs_calls (detect : HNode → Detected) (env : FetchEnv)
    (pageId url : String) (sel : Selectors) (seen : Finset String) :
    (scrapeJobs detect env pageId url sel seen).staticCalls
        = (fetchPage env sel.use_playwright).2.1
      ∧ (scrapeJobs detect env pageId url sel seen).renderedCalls
          = (fetchPage env sel.use_playwright).2.2 := by
  unfold scrapeJobs
  rcases hf : fetchPage env sel.use_playwright with ⟨ho, sc, rc⟩
  cases ho with
  | none => exact ⟨rfl, rfl⟩
  | some html =>
      dsimp only
      by_cases hauto : sel.type = "auto" ∨ sel.job_card = none
      · rw [if_pos hauto]
        rcases Option.eq_none_or_eq_some ((detect html).job_card)
          with hd | ⟨jc, hd⟩ <;> rw [hd] <;> exact ⟨rfl, rfl⟩
      · rw [if_neg hauto]
        rcases Option.eq_none_or_eq_some sel.job_card with hjc | ⟨jc, hjc⟩ <;>
          rw [hjc] <;> exact ⟨rfl, rfl⟩

lemma scrapeJobs_detect_miss (detect : HNode → Detected) (env : FetchEnv)
    (pageId url : String) (sel : Selectors) (seen : Finset String)
    (html : HNode) (hflag : sel.use_playwright = false)
    (hs : env.staticHtml = some html)
    (hauto : sel.type = "auto" ∨ sel.job_card = none)
    (hd : (detect html).job_card = none) :
    (scrapeJobs detect env pageId url sel seen).jobs = [] := by
  unfold scrapeJobs
  rw [hflag, fetchPage_false_some env html hs]
  dsimp only
  rw [if_pos hauto, hd]

lemma detectSelectorsFlow_miss (detect : HNode → Detected) (env : FetchEnv)
    (html : HNode) (hs : env.staticHtml = some html)
    (hd : (detect html).job_card = none) :
    (detectSelectorsFlow detect env).renderedCalls = 1 := by
  unfold detectSelectorsFlow
  rw [fetchPage_false_some env html hs, fetchPage_true]
  dsimp only
  rw [if_pos hd]
  rcases Option.eq_none_or_eq_some env.renderedHtml with hr | ⟨h2, hr⟩
  · rw [hr]
  · rw [hr]
    dsimp only
    rcases Bool.eq_false_or_eq_true (HNode.beq h2 html) with hb | hb <;>
      rw [hb] <;>
      rcases Option.eq_none_or_eq_some ((detect h2).job_card)
        with hd2 | ⟨jc2, hd2⟩ <;>
      rw [hd2] <;> rfl

lemma scrapeJobs_jobs_filter (detect : HNode → Detected) (env : FetchEnv)
    (pageId url : String) (sel : Selectors) (seen : Finset String) :
    (scrapeJobs detect env pageId url sel seen).jobs
      = ((scrapeJobs detect env pageId url sel ∅).jobs).filter
          (fun j => decide (jobGetHash j ∉ seen)) :=
  (scrapeJobs_seen_spec detect env pageId url sel seen).1

lemma scrapeJobs_hash_not_seen (detect : HNode → Detected) (env : FetchEnv)
    (pageId url : String) (sel : Selectors) (seen : Finset String)
    (j : Job) (hj : j ∈ (scrapeJobs detect env pageId url sel seen).jobs) :
    jobGetHash j ∉ seen := by
  rw [scrapeJobs_jobs_filter] at hj
  have := (List.mem_filter.mp hj).2
  simpa using this

/-! ## Concrete documents used by counterexamples and witnesses -/

/-- A job card: class `job-item`, an `h3` title and an anchor with an
absolute href. -/
def jobCardElem : HNode :=
  .elem "div" ["job-item"] []
    (nodeListOf
      [.elem "h3" [] [] (nodeListOf [.text "Engineer"]),
       .elem "a" [] [("href", "http://acme.example/j1")] (nodeListOf [])])

/-- A document holding one job card. -/
def demoDoc : HNode := .elem "html" [] [] (nodeListOf [jobCardElem])

/-- Fetch environment where the static strategy returns `demoDoc`. -/
def demoEnv : FetchEnv := { staticHtml := some demoDoc, renderedHtml := none }

/-- A custom selector configuration pointing at the job card class
(detection not involved). -/
def customSel : Selectors := { type := "custom", job_card := some ".job-item" }

/-- A detector outcome with no container, modelling
`SelectorDetector.detect_selectors` on markup with no job-vocabulary classes
and no repeated sibling groups (it returns the empty selector dictionary when
`_detect_job_containers` yields no candidates). -/
def noDetect : HNode → Detected := fun _ => {}

/-- A document with no job content at all. -/
def plainDoc : HNode := .elem "html" [] [] (nodeListOf [.text "no jobs here"])

/-- Fetch environment where both strategies succeed and return the
container-free document. -/
def c6Env : FetchEnv := { staticHtml := some plainDoc, renderedHtml := some plainDoc }

/-- The default selector configuration: auto mode, no container selector, no
fetch-strategy flag. -/
def autoSel : Selectors := {}

/-- The fingerprint of the record extracted from `jobCardElem` (under the
injective digest model). -/
def demoSeen : Finset String := {"Engineer|Acme|http://acme.example/j1"}

/-- Claim C5: the engine is claimed to be dedup-agnostic — its returned list
should not depend on the seen-set argument.  Refuted: on the same markup and
config, passing the extracted record's fingerprint in the seen-set changes
the returned list (the engine filters internally at `scraper.py` line 290). -/
theorem c5_dedup_agnostic_counterexample :
    (scrapeJobs noDetect demoEnv "p1" "http://acme.example/careers" customSel
        ∅).jobs
      ≠ (scrapeJobs noDetect demoEnv "p1" "http://acme.example/careers"
          customSel demoSeen).jobs := by
  decide

/-- Claim C5 amended: the engine itself performs the seen-set filtering: for
every markup, config and seen-set, its result is exactly the seen-independent
extraction (the run with an empty seen-set, whose selector updates and fetch
behaviour are also seen-independent) minus the records whose fingerprint is
in the seen-set. -/
theorem c5_engine_filters_seen (detect : HNode → Detected) (env : FetchEnv)
    (pageId url : String) (sel : Selectors) (seen : Finset String) :
    (scrapeJobs detect env pageId url sel seen).jobs
        = ((scrapeJobs detect env pageId url sel ∅).jobs).filter
            (fun j => decide (jobGetHash j ∉ seen))
      ∧ (scrapeJobs detect env pageId url sel seen).sel
          = (scrapeJobs detect env pageId url sel ∅).sel
      ∧ (scrapeJobs detect env pageId url sel seen).staticCalls
          = (scrapeJobs detect env pageId url sel ∅).staticCalls
      ∧ (scrapeJobs detect env pageId url sel seen).renderedCalls
          = (scrapeJobs detect env pageId url sel ∅).renderedCalls :=
  scrapeJobs_seen_spec detect env pageId url sel seen

/-- Claim C6: with no explicit fetch-strategy flag, a cycle whose static
fetch succeeds but whose selector detection finds no container is claimed to
trigger exactly one rendered fetch.  Refuted: in `scrape_jobs` the detection
miss returns an empty result with zero rendered attempts. -/
theorem c6_fallback_counterexample :
    autoSel.use_playwright = false
      ∧ c6Env.staticHtml = some plainDoc
      ∧ (noDetect plainDoc).job_card = none
      ∧ (scrapeJobs noDetect c6Env "p1" "http://acme.example/careers" autoSel
          ∅).jobs = []
      ∧ (scrapeJobs noDetect c6Env "p1" "http://acme.example/careers" autoSel
          ∅).renderedCalls = 0 := by
  refine ⟨rfl, rfl, rfl, ?_, ?_⟩ <;> decide

/-- Claim C6 amended: with no explicit fetch-strategy flag the static
strategy is attempted first on every scrape, and the rendered strategy is
tried exactly once as a fallback when the static fetch fails; but on a
selector-detection miss over statically fetched markup only the standalone
`detect_selectors` flow performs the single rendered retry — the scrape flow
returns an empty result with no rendered attempt. -/
theorem c6_fallback_amended (detect : HNode → Detected) (env : FetchEnv)
    (pageId url : String) (sel : Selectors) (seen : Finset String)
    (hflag : sel.use_playwright = false) :
    (scrapeJobs detect env pageId url sel seen).staticCalls = 1
      ∧ (env.staticHtml = none →
          (scrapeJobs detect env pageId url sel seen).renderedCalls = 1)
      ∧ (∀ html, env.staticHtml = some html →
          (scrapeJobs detect env pageId url sel seen).renderedCalls = 0)
      ∧ (∀ html, env.staticHtml = some html →
          (sel.type = "auto" ∨ sel.job_card = none) →
          (detect html).job_card = none →
          (scrapeJobs detect env pageId url sel seen).jobs = [])
      ∧ (∀ html, env.staticHtml = some html →
          (detect html).job_card = none →
          (detectSelectorsFlow detect env).renderedCalls = 1) := by
  have hcalls := scrapeJobs_calls detect env pageId url sel seen
  rw [hflag] at hcalls
  refine ⟨?_, ?_, ?_, ?_, ?_⟩
  · rcases hs : env.staticHtml with _ | html
    · rw [hcalls.1, fetchPage_false_none env hs]
    · rw [hcalls.1, fetchPage_false_some env html hs]
  · intro hs
    rw [hcalls.2, fetchPage_false_none env hs]
  · intro html hs
    rw [hcalls.2, fetchPage_false_some env html hs]
  · intro html hs hauto hd
    exact scrapeJobs_detect_miss detect env pageId url sel seen html hflag hs
      hauto hd
  · intro html hs hd
    exact detectSelectorsFlow_miss detect env html hs hd

/-- Witness for the amended C6 on a concrete environment: the scrape makes
one static attempt, and the standalone detection flow performs exactly one
rendered retry after a detection miss. -/
theorem c6_fallback_amended_witness :
    (scrapeJobs noDetect c6Env "p1" "http://acme.example/careers" autoSel
        ∅).staticCalls = 1
      ∧ (detectSelectorsFlow noDetect c6Env).renderedCalls = 1 := by
  have h := c6_fallback_amended noDetect c6Env "p1"
    "http://acme.example/careers" autoSel ∅ rfl
  exact ⟨h.1, h.2.2.2.2 plainDoc rfl rfl⟩

/-! ## Seen-set operations (`RedisManager`)

`redisFails` models a `RedisError` raised by the Redis client inside the
operation; the code catches it and returns the documented default (`False`
for the membership test, the empty set for the read, and an unchanged store
for the bulk insert). -/

/-- Embeds `RedisManager.get_seen_jobs`. -/
def getSeenJobs (redisFails : Bool) (stored : Finset String) : Finset String :=
  if redisFails then ∅ else stored

/-- Embeds `RedisManager.is_job_seen`. -/
def isJobSeen (redisFails : Bool) (stored : Finset String)
    (jobHash : String) : Bool :=
  if redisFails then false else decide (jobHash ∈ stored)

/-- Embeds `RedisManager.add_seen_jobs_bulk` (the shared-TTL refresh has no
observable effect within one cycle and is not modelled). -/
def addSeenJobsBulk (redisFails : Bool) (stored hashes : Finset String) :
    Finset String :=
  if redisFails then stored else stored ∪ hashes

lemma getSeenJobs_ok (s : Finset String) : getSeenJobs false s = s := rfl

lemma addSeenJobsBulk_ok (s h : Finset String) :
    addSeenJobsBulk false s h = s ∪ h := rfl

/-! ## Monitoring cycle (`PageMonitorThread._scrape_and_notify`)

One cycle as a state transition.  The collaborator failure modes appearing in
the `try/except` structure of the source are explicit flags:

* `scrapeRaises` — an exception escapes `scraper.scrape_jobs` (for example
  from the HTML parser); control jumps to the `except` handler.
* `firebaseReadRaises` — the unguarded Firestore document read inside
  `FirebaseManager.update_last_check(..., success=False)` (line 118 of
  `firebase_manager.py`, outside any `try`) raises; since the handler runs
  that call before `release_page_lock`, the exception escapes
  `_scrape_and_notify` before the release.
* `redisFails` — `RedisError` inside the seen-set operations (caught there).

Timestamps (`firestore.SERVER_TIMESTAMP`) are modelled by the abstract clock
value `now`.  The lock is the target's Redis lock key viewed within one
cycle: `lockHeld` says an unexpired lock key exists. -/

structure PageState where
  seen : Finset String
  lockHeld : Bool
  errorCount : Nat
  jobsFoundTotal : Nat
  lastCheck : Option Nat
  lastSuccess : Option Nat
deriving DecidableEq

structure CycleEnv where
  fetch : FetchEnv
  detect : HNode → Detected
  scrapeRaises : Bool
  redisFails : Bool
  firebaseReadRaises : Bool
  now : Nat

/-- Observable outcome of one `_scrape_and_notify` call: the page state
afterwards, the batch passed to the notification callback, how many
static/rendered fetches and scrape calls were made, whether the lock was
acquired, whether `release_page_lock` was invoked, and whether an exception
escaped the method. -/
structure CycleResult where
  state : PageState
  notified : List Job
  staticCalls : Nat
  renderedCalls : Nat
  scrapeCalls : Nat
  acquired : Bool
  released : Bool
  raised : Bool

/-- Embeds `PageMonitorThread._scrape_and_notify`.  Lock contention returns
immediately; otherwise the seen-set is read, `scrape_jobs` runs,
`update_last_check` is called with `success = (len(new_jobs) >= 0)` — which
is always true — and, when new jobs exist, their fingerprints are bulk
inserted, the jobs-found counter is incremented and the batch is notified;
the lock is released at the end of the `try` block, or in the `except`
handler after the failure is recorded. -/
def scrapeAndNotify (env : CycleEnv) (pageId url : String) (sel : Selectors)
    (st : PageState) : CycleResult :=
  if st.lockHeld then
    { state := st, notified := [], staticCalls := 0, renderedCalls := 0
      scrapeCalls := 0, acquired := false, released := false, raised := false }
  else
    if env.scrapeRaises then
      if env.firebaseReadRaises then
        { state := { st with lockHeld := true }, notified := []
          staticCalls := 0, renderedCalls := 0, scrapeCalls := 1
          acquired := true, released := false, raised := true }
      else
        { state :=
            { st with
                lockHeld := false
                errorCount := st.errorCount + 1
                lastCheck := some env.now }
          notified := [], staticCalls := 0, renderedCalls := 0
          scrapeCalls := 1, acquired := true, released := true
          raised := false }
    else
      if (scrapeJobs env.detect env.fetch pageId url sel
          (getSeenJobs env.redisFails st.seen)).jobs = [] then
        { state :=
            { st with
                lockHeld := false
                lastCheck := some env.now
                lastSuccess := some env.now
                errorCount := 0 }
          notified := []
          staticCalls := (scrapeJobs env.detect env.fetch pageId url sel
            (getSeenJobs env.redisFails st.seen)).staticCalls
          renderedCalls := (scrapeJobs env.detect env.fetch pageId url sel
            (getSeenJobs env.redisFails st.seen)).renderedCalls
          scrapeCalls := 1, acquired := true, released := true
          raised := false }
      else
        { state :=
            { st with
                lockHeld := false
                lastCheck := some env.now
                lastSuccess := some env.now
                errorCount := 0
                seen := addSeenJobsBulk env.redisFails st.seen
                  (((scrapeJobs env.detect env.fetch pageId url sel
                    (getSeenJobs env.redisFails st.seen)).jobs.map
                      jobGetHash).toFinset)
                jobsFoundTotal := st.jobsFoundTotal
                  + (scrapeJobs env.detect env.fetch pageId url sel
                    (getSeenJobs env.redisFails st.seen)).jobs.length }
          notified := (scrapeJobs env.detect env.fetch pageId url sel
            (getSeenJobs env.redisFails st.seen)).jobs
          staticCalls := (scrapeJobs env.detect env.fetch pageId url sel
            (getSeenJobs env.redisFails st.seen)).staticCalls
          renderedCalls := (scrapeJobs env.detect env.fetch pageId url sel
            (getSeenJobs env.redisFails st.seen)).renderedCalls
          scrapeCalls := 1, acquired := true, released := true
          raised := false }

/-- A cycle environment where every collaborator behaves (both fetch
strategies fail, so the scrape yields no records). -/
def cEnv : CycleEnv :=
  { fetch := { staticHtml := none, renderedHtml := none }
    detect := fun _ => {}
    scrapeRaises := false, redisFails := false, firebaseReadRaises := false
    now := 7 }

/-- A cycle environment where the scrape raises and the failure-recording
Firestore read in the `except` handler raises as well. -/
def c4Env : CycleEnv :=
  { fetch := { staticHtml := none, renderedHtml := none }
    detect := fun _ => {}
    scrapeRaises := true, redisFails := false, firebaseReadRaises := true
    now := 7 }

/-- A cycle environment where the Redis seen-set operations raise
`RedisError` while the scrape itself succeeds on `demoDoc`. -/
def cFailEnv : CycleEnv :=
  { fetch := { staticHtml := some demoDoc, renderedHtml := none }
    detect := fun _ => {}
    scrapeRaises := false, redisFails := true, firebaseReadRaises := false
    now := 7 }

/-- A page state whose lock key currently exists (another cycle running). -/
def lockedState : PageState :=
  { seen := ∅, lockHeld := true, errorCount := 2, jobsFoundTotal := 5
    lastCheck := none, lastSuccess := none }

/-- A page state with no lock and an empty seen-set. -/
def freeState : PageState :=
  { seen := ∅, lockHeld := false, errorCount := 0, jobsFoundTotal := 0
    lastCheck := none, lastSuccess := none }

/-- A page state whose seen-set already holds the fingerprint "f". -/
def seenState : PageState :=
  { seen := {"f"}, lockHeld := false, errorCount := 0, jobsFoundTotal := 0
    lastCheck := none, lastSuccess := none }

/-- Claim C1: when the seen-set read succeeds, a fingerprint already in the
target's seen-set is excluded from the cycle's new records: every notified
record's fingerprint differs from it, the jobs-found counter grows by
exactly the number of notified records, and the seen-set afterwards is the
old one plus exactly the notified fingerprints. -/
theorem c1_seen_excluded (env : CycleEnv) (pageId url : String)
    (sel : Selectors) (st : PageState) (fp : String)
    (hredis : env.redisFails = false) (hfp : fp ∈ st.seen) :
    (∀ j ∈ (scrapeAndNotify env pageId url sel st).notified, jobGetHash j ≠ fp)
      ∧ (scrapeAndNotify env pageId url sel st).state.jobsFoundTotal
          = st.jobsFoundTotal
            + (scrapeAndNotify env pageId url sel st).notified.length
      ∧ (scrapeAndNotify env pageId url sel st).state.seen
          = st.seen ∪ (((scrapeAndNotify env pageId url sel st).notified.map
              jobGetHash).toFinset) := by
  unfold scrapeAndNotify
  rw [hredis, getSeenJobs_ok]
  by_cases hlock : st.lockHeld = true
  · rw [if_pos hlock]
    exact ⟨fun j hj => absurd hj (List.not_mem_nil j), by simp, by simp⟩
  · rw [if_neg hlock]
    by_cases hraise : env.scrapeRaises = true
    · rw [if_pos hraise]
      by_cases hfb : env.firebaseReadRaises = true
      · rw [if_pos hfb]
        exact ⟨fun j hj => absurd hj (List.not_mem_nil j), by simp, by simp⟩
      · rw [if_neg hfb]
        exact ⟨fun j hj => absurd hj (List.not_mem_nil j), by simp, by simp⟩
    · rw [if_neg hraise]
      by_cases hempty :
          (scrapeJobs env.detect env.fetch pageId url sel st.seen).jobs = []
      · rw [if_pos hempty]
        exact ⟨fun j hj => absurd hj (List.not_mem_nil j), by simp, by simp⟩
      · rw [if_neg hempty]
        refine ⟨?_, by simp, ?_⟩
        · intro j hj heq
          exact scrapeJobs_hash_not_seen env.detect env.fetch pageId url sel
            st.seen j hj (heq ▸ hfp)
        · rw [addSeenJobsBulk_ok]

/-- Witness for C1: with fingerprint "f" already seen, the cycle's final
seen-set is the old one plus exactly the notified fingerprints. -/
theorem c1_seen_excluded_witness :
    (scrapeAndNotify cEnv "p1" "http://acme.example/careers" autoSel
        seenState).state.seen
      = seenState.seen
        ∪ (((scrapeAndNotify cEnv "p1" "http://acme.example/careers" autoSel
            seenState).notified.map jobGetHash).toFinset) :=
  (c1_seen_excluded cEnv "p1" "http://acme.example/careers" autoSel seenState
    "f" rfl (by decide)).2.2

/-- Claim C3: when an unexpired lock exists, the cycle is skipped with no
effect: the page state (seen-set, counters, timestamps) is unchanged,
nothing is notified, and no fetch or extraction call is made. -/
theorem c3_lock_contention_skip (env : CycleEnv) (pageId url : String)
    (sel : Selectors) (st : PageState) (hlock : st.lockHeld = true) :
    (scrapeAndNotify env pageId url sel st).state = st
      ∧ (scrapeAndNotify env pageId url sel st).notified = []
      ∧ (scrapeAndNotify env pageId url sel st).staticCalls = 0
      ∧ (scrapeAndNotify env pageId url sel st).renderedCalls = 0
      ∧ (scrapeAndNotify env pageId url sel st).scrapeCalls = 0 := by
  unfold scrapeAndNotify
  rw [if_pos hlock]
  exact ⟨rfl, rfl, rfl, rfl, rfl⟩

/-- Witness for C3 on a concrete locked state. -/
theorem c3_lock_contention_skip_witness :
    (scrapeAndNotify cEnv "p1" "http://acme.example/careers" autoSel
        lockedState).state = lockedState
      ∧ (scrapeAndNotify cEnv "p1" "http://acme.example/careers" autoSel
          lockedState).notified = []
      ∧ (scrapeAndNotify cEnv "p1" "http://acme.example/careers" autoSel
          lockedState).staticCalls = 0
      ∧ (scrapeAndNotify cEnv "p1" "http://acme.example/careers" autoSel
          lockedState).renderedCalls = 0
      ∧ (scrapeAndNotify cEnv "p1" "http://acme.example/careers" autoSel
          lockedState).scrapeCalls = 0 :=
  c3_lock_contention_skip cEnv "p1" "http://acme.example/careers" autoSel
    lockedState rfl

/-- Claim C4: the lock is claimed to be released on every exit path of a
cycle that acquired it.  Refuted: when the scrape raises and the
failure-recording Firestore read in the `except` handler raises too, the
cycle acquired the lock but `release_page_lock` is never invoked (the source
uses `except`, not `finally`). -/
theorem c4_release_counterexample :
    (scrapeAndNotify c4Env "p1" "http://acme.example/careers" autoSel
        freeState).acquired = true
      ∧ (scrapeAndNotify c4Env "p1" "http://acme.example/careers" autoSel
          freeState).released = false :=
  ⟨rfl, rfl⟩

/-- Claim C4 amended: a cycle that acquired the lock invokes the release on
every exit path except the one where the scrape raises and recording the
failure in the `except` handler itself raises — exactly then the lock is left
held. -/
theorem c4_release_amended (env : CycleEnv) (pageId url : String)
    (sel : Selectors) (st : PageState)
    (hacq : (scrapeAndNotify env pageId url sel st).acquired = true) :
    ((scrapeAndNotify env pageId url sel st).released = true
      ↔ ¬(env.scrapeRaises = true ∧ env.firebaseReadRaises = true)) := by
  unfold scrapeAndNotify at hacq ⊢
  by_cases hlock : st.lockHeld = true
  · rw [if_pos hlock] at hacq
    simp at hacq
  · rw [if_neg hlock]
    by_cases hraise : env.scrapeRaises = true
    · rw [if_pos hraise]
      by_cases hfb : env.firebaseReadRaises = true
      · rw [if_pos hfb]
        constructor
        · intro h
          simp at h
        · intro h
          exact absurd ⟨hraise, hfb⟩ h
      · rw [if_neg hfb]
        constructor
        · intro _ h
          exact hfb h.2
        · intro _
          rfl
    · rw [if_neg hraise]
      by_cases hempty :
          (scrapeJobs env.detect env.fetch pageId url sel
            (getSeenJobs env.redisFails st.seen)).jobs = []
      · rw [if_pos hempty]
        constructor
        · intro _ h
          exact hraise h.1
        · intro _
          rfl
      · rw [if_neg hempty]
        constructor
        · intro _ h
          exact hraise h.1
        · intro _
          rfl

/-- Witness for the amended C4: with no collaborator failure the lock is
released. -/
theorem c4_release_amended_witness :
    (scrapeAndNotify cEnv "p1" "http://acme.example/careers" autoSel
        freeState).released = true :=
  (c4_release_amended cEnv "p1" "http://acme.example/careers" autoSel
    freeState (by decide)).mpr (by decide)

/-- Claim C10: when the seen-set operations raise, the membership test
returns false, the set read returns the empty set, and a cycle running under
the failure notifies exactly the seen-independent extraction — every record
a healthy cycle would have notified is still notified (dedup degrades toward
re-notifying, never toward suppressing). -/
theorem c10_store_failure_unseen (s : Finset String) (h : String)
    (env : CycleEnv) (pageId url : String) (sel : Selectors) (st : PageState)
    (hfail : env.redisFails = true) (hraise : env.scrapeRaises = false)
    (hlock : st.lockHeld = false) :
    isJobSeen true s h = false
      ∧ getSeenJobs true s = ∅
      ∧ (scrapeAndNotify env pageId url sel st).notified
          = (scrapeJobs env.detect env.fetch pageId url sel ∅).jobs
      ∧ (∀ j ∈ (scrapeJobs env.detect env.fetch pageId url sel st.seen).jobs,
          j ∈ (scrapeAndNotify env pageId url sel st).notified) := by
  have hnotif : (scrapeAndNotify env pageId url sel st).notified
      = (scrapeJobs env.detect env.fetch pageId url sel ∅).jobs := by
    unfold scrapeAndNotify
    rw [hfail]
    rw [if_neg (by simp [hlock]), if_neg (by simp [hraise])]
    rw [show getSeenJobs true st.seen = ∅ from rfl]
    by_cases hempty :
        (scrapeJobs env.detect env.fetch pageId url sel ∅).jobs = []
    · rw [if_pos hempty]
      exact hempty.symm
    · rw [if_neg hempty]
  refine ⟨rfl, rfl, hnotif, ?_⟩
  intro j hj
  rw [hnotif]
  rw [scrapeJobs_jobs_filter env.detect env.fetch pageId url sel st.seen]
    at hj
  exact (List.mem_filter.mp hj).1

/-- Witness for C10 at a concrete failing environment with a non-empty
extraction. -/
theorem c10_store_failure_unseen_witness :
    isJobSeen true demoSeen "Engineer|Acme|http://acme.example/j1" = false
      ∧ getSeenJobs true demoSeen = ∅
      ∧ (scrapeAndNotify cFailEnv "p1" "http://acme.example/careers"
          customSel freeState).notified
        = (scrapeJobs cFailEnv.detect cFailEnv.fetch "p1"
            "http://acme.example/careers" customSel ∅).jobs := by
  have h := c10_store_failure_unseen demoSeen
    "Engineer|Acme|http://acme.example/j1" cFailEnv "p1"
    "http://acme.example/careers" customSel freeState rfl rfl rfl
  exact ⟨h.1, h.2.1, h.2.2.1⟩
